import Mathlib

set_option maxRecDepth 100000

/-!
Verification of the `sparrow.labeling` Python package (file
`src/sparrow/labeling/__init__.py`): the dimension rescaler
`_image_dimensions_rescale`, the image resizer `_resize_img`, the
content-addressed background-image identifier built from an md5 digest,
and the dataflow of `st_sparrow_labeling` into the rendering component.

Numeric model.  Python `int` is modelled by `ℤ` (arbitrary precision, as in
Python).  Python float arithmetic (the `/` and `*` operations appearing in
the source) is modelled two ways:
* `fdiv` / `fmul`: IEEE-754 double-precision round-to-nearest-even over ℚ
  (`roundDouble`), which reproduces binary floating point exactly for all
  values in the normal range; exponent-range overflow and subnormals are
  not modelled (they occur only for inputs beyond ~2^1000);
* an `..._exact` variant using exact rational arithmetic, the mathematical
  idealization, used to state amended claims.
Python `int(x)` on a float is truncation toward zero, modelled by `pyInt`.
-/

/-- Python `int(x)` applied to a real value: truncation toward zero. -/
def pyInt (q : ℚ) : ℤ :=
  if 0 ≤ q then ⌊q⌋ else -⌊-q⌋

/-- Round a rational to the nearest integer, ties to even (IEEE-754 default
rounding used by Python floats). -/
def roundHalfEven (q : ℚ) : ℤ :=
  let m := ⌊q⌋
  let f := q - (m : ℚ)
  if (1 : ℚ)/2 < f then m + 1
  else if f < (1 : ℚ)/2 then m
  else if m % 2 = 0 then m else m + 1

/-- The power `2^e` in ℚ for an integer exponent. -/
def qpow2 (e : ℤ) : ℚ :=
  if 0 ≤ e then ((2 : ℚ) ^ e.toNat) else ((2 : ℚ) ^ (-e).toNat)⁻¹

/-- Fuel-driven base-2 logarithm on ℕ (structurally recursive so that it
evaluates by kernel reduction). -/
def nlog2Aux : ℕ → ℕ → ℕ
  | 0, _ => 0
  | fuel + 1, n => if n ≤ 1 then 0 else nlog2Aux fuel (n / 2) + 1

/-- Base-2 logarithm on ℕ: `⌊log₂ n⌋` for `n ≥ 1`, and `0` at `0`. -/
def nlog2 (n : ℕ) : ℕ := nlog2Aux n n

/-- Binary exponent of a positive rational: the unique `e` with
`2^e ≤ q < 2^(e+1)` (junk value on `q ≤ 0`). -/
def qexp (q : ℚ) : ℤ :=
  let e0 : ℤ := (nlog2 q.num.toNat : ℤ) - (nlog2 q.den : ℤ)
  if q < qpow2 e0 then e0 - 1 else e0

/-- Round a rational to the nearest IEEE-754 double (53-bit significand,
round-to-nearest-even).  Exact in the normal range; exponent overflow and
subnormals are not modelled. -/
def roundDouble (q : ℚ) : ℚ :=
  if q = 0 then 0
  else if 0 < q then
    (roundHalfEven (q / qpow2 (qexp q - 52)) : ℚ) * qpow2 (qexp q - 52)
  else
    -((roundHalfEven (-q / qpow2 (qexp (-q) - 52)) : ℚ) * qpow2 (qexp (-q) - 52))

/-- Python float division `a / b` (correctly rounded IEEE double). -/
def fdiv (a b : ℚ) : ℚ := roundDouble (a / b)

/-- Python float multiplication `a * b` (correctly rounded IEEE double). -/
def fmul (a b : ℚ) : ℚ := roundDouble (a * b)

/-- Embedding of `_image_dimensions_rescale(canvas_width, doc_width,
doc_height)` with Python float semantics:

    w_ratio = canvas_width / doc_width
    height = int(doc_height * w_ratio)
    if canvas_width >= doc_width: width = canvas_width
    else: width = int(doc_width * w_ratio)
    return height, width
-/
def image_dimensions_rescale (canvas_width doc_width doc_height : ℤ) : ℤ × ℤ :=
  let w_ratio : ℚ := fdiv (canvas_width : ℚ) (doc_width : ℚ)
  let height : ℤ := pyInt (fmul (doc_height : ℚ) w_ratio)
  let width : ℤ :=
    if canvas_width ≥ doc_width then canvas_width
    else pyInt (fmul (doc_width : ℚ) w_ratio)
  (height, width)

/-- The same rescaler under exact (infinite-precision) division and
multiplication: the mathematical idealization of the float arithmetic. -/
def image_dimensions_rescale_exact (canvas_width doc_width doc_height : ℤ) : ℤ × ℤ :=
  let w_ratio : ℚ := (canvas_width : ℚ) / (doc_width : ℚ)
  let height : ℤ := pyInt ((doc_height : ℚ) * w_ratio)
  let width : ℤ :=
    if canvas_width ≥ doc_width then canvas_width
    else pyInt ((doc_width : ℚ) * w_ratio)
  (height, width)

/-- Pixel dimensions of a PIL image (the pixel buffer itself is kept
abstract; `tobytes` is modelled as an external function where needed). -/
structure PILImage where
  width : ℤ
  height : ℤ
deriving DecidableEq, Repr

/-- Embedding of `_resize_img(img, new_height, new_width)` with Python float
semantics:

    h_ratio = new_height / img.height
    w_ratio = new_width / img.width
    img = img.resize((int(img.width * w_ratio), int(img.height * h_ratio)))
-/
def resize_img (img : PILImage) (new_height new_width : ℤ) : PILImage :=
  let h_ratio : ℚ := fdiv (new_height : ℚ) (img.height : ℚ)
  let w_ratio : ℚ := fdiv (new_width : ℚ) (img.width : ℚ)
  { width := pyInt (fmul (img.width : ℚ) w_ratio),
    height := pyInt (fmul (img.height : ℚ) h_ratio) }

/-- Embedding of `_resize_img` under exact rational arithmetic (idealized division). -/
def resize_img_exact (img : PILImage) (new_height new_width : ℤ) : PILImage :=
  let h_ratio : ℚ := (new_height : ℚ) / (img.height : ℚ)
  let w_ratio : ℚ := (new_width : ℚ) / (img.width : ℚ)
  { width := pyInt ((img.width : ℚ) * w_ratio),
    height := pyInt ((img.height : ℚ) * h_ratio) }

/-!
MD5 (RFC 1321), modelled from the `hashlib.md5` standard-library routine the
source calls on `background_image.tobytes()`.  Messages are byte lists
(each entry < 256); the digest is the usual 16-byte little-endian
serialization of the four 32-bit state words.
-/

/-- The constant `2^32`, the modulus of MD5 word arithmetic. -/
def m32 : ℕ := 4294967296

/-- The 64 MD5 sine-derived constants `⌊|sin(i+1)|·2^32⌋`. -/
def mdK : List ℕ := [
  3614090360, 3905402710, 606105819, 3250441966, 4118548399, 1200080426, 2821735955, 4249261313,
  1770035416, 2336552879, 4294925233, 2304563134, 1804603682, 4254626195, 2792965006, 1236535329,
  4129170786, 3225465664, 643717713, 3921069994, 3593408605, 38016083, 3634488961, 3889429448,
  568446438, 3275163606, 4107603335, 1163531501, 2850285829, 4243563512, 1735328473, 2368359562,
  4294588738, 2272392833, 1839030562, 4259657740, 2763975236, 1272893353, 4139469664, 3200236656,
  681279174, 3936430074, 3572445317, 76029189, 3654602809, 3873151461, 530742520, 3299628645,
  4096336452, 1126891415, 2878612391, 4237533241, 1700485571, 2399980690, 4293915773, 2240044497,
  1873313359, 4264355552, 2734768916, 1309151649, 4149444226, 3174756917, 718787259, 3951481745]

/-- The 64 MD5 per-round left-rotation amounts. -/
def mdS : List ℕ := [
  7, 12, 17, 22, 7, 12, 17, 22, 7, 12, 17, 22, 7, 12, 17, 22,
  5, 9, 14, 20, 5, 9, 14, 20, 5, 9, 14, 20, 5, 9, 14, 20,
  4, 11, 16, 23, 4, 11, 16, 23, 4, 11, 16, 23, 4, 11, 16, 23,
  6, 10, 15, 21, 6, 10, 15, 21, 6, 10, 15, 21, 6, 10, 15, 21]

/-- MD5 round function F (rounds 0-15); `4294967295 - x` is 32-bit NOT. -/
def mF (b c d : ℕ) : ℕ := (b &&& c) ||| ((4294967295 - b) &&& d)

/-- MD5 round function G (rounds 16-31). -/
def mG (b c d : ℕ) : ℕ := (d &&& b) ||| ((4294967295 - d) &&& c)

/-- MD5 round function H (rounds 32-47). -/
def mH (b c d : ℕ) : ℕ := b ^^^ c ^^^ d

/-- MD5 round function I (rounds 48-63). -/
def mI (b c d : ℕ) : ℕ := c ^^^ (b ||| (4294967295 - d))

/-- 32-bit left rotation (operand assumed < 2^32). -/
def rotl32 (x s : ℕ) : ℕ := ((x <<< s) % m32) ||| (x >>> (32 - s))

/-- One MD5 round: state `(a,b,c,d)`, message words `M`, round index `i`. -/
def md5Step (M : List ℕ) (st : ℕ × ℕ × ℕ × ℕ) (i : ℕ) : ℕ × ℕ × ℕ × ℕ :=
  let a := st.1
  let b := st.2.1
  let c := st.2.2.1
  let d := st.2.2.2
  let f := if i < 16 then mF b c d else if i < 32 then mG b c d
           else if i < 48 then mH b c d else mI b c d
  let g := if i < 16 then i else if i < 32 then (5 * i + 1) % 16
           else if i < 48 then (3 * i + 5) % 16 else (7 * i) % 16
  let x := (a + f + mdK.getD i 0 + M.getD g 0) % m32
  (d, (b + rotl32 x (mdS.getD i 0)) % m32, b, c)

/-- Process one 16-word block, adding the result into the running state. -/
def md5Block (st : ℕ × ℕ × ℕ × ℕ) (M : List ℕ) : ℕ × ℕ × ℕ × ℕ :=
  let r := (List.range 64).foldl (md5Step M) st
  ((st.1 + r.1) % m32, (st.2.1 + r.2.1) % m32,
   (st.2.2.1 + r.2.2.1) % m32, (st.2.2.2 + r.2.2.2) % m32)

/-- Groups of four bytes to little-endian 32-bit words. -/
def bytesToWords : List ℕ → List ℕ
  | b0 :: b1 :: b2 :: b3 :: t =>
      (b0 + 256 * b1 + 65536 * b2 + 16777216 * b3) :: bytesToWords t
  | _ => []

/-- Split a byte list into chunks of 64. -/
def chunk64 (l : List ℕ) : List (List ℕ) :=
  if h : l = [] then [] else l.take 64 :: chunk64 (l.drop 64)
termination_by l.length
decreasing_by
  simp only [List.length_drop]
  have := List.length_pos.mpr h
  omega

/-- Little-endian 4-byte serialization of a 32-bit word. -/
def toBytesLE4 (x : ℕ) : List ℕ := [x % 256, x / 256 % 256, x / 65536 % 256, x / 16777216 % 256]

/-- Little-endian 8-byte serialization of a 64-bit length field. -/
def toBytesLE8 (x : ℕ) : List ℕ := toBytesLE4 (x % m32) ++ toBytesLE4 (x / m32)

/-- MD5 padding: a `0x80` byte, zeros to 56 mod 64, then the bit length. -/
def padMessage (msg : List ℕ) : List ℕ :=
  let L := msg.length
  let k := (120 - ((L + 1) % 64)) % 64
  msg ++ 128 :: List.replicate k 0 ++ toBytesLE8 ((8 * L) % 18446744073709551616)

/-- The MD5 initial state. -/
def md5Init : ℕ × ℕ × ℕ × ℕ := (1732584193, 4023233417, 2562383102, 271733878)

/-- The 16-byte MD5 digest of a byte-list message. -/
def md5Bytes (msg : List ℕ) : List ℕ :=
  let r := (chunk64 (padMessage msg)).foldl
    (fun st blk => md5Block st (bytesToWords blk)) md5Init
  toBytesLE4 r.1 ++ toBytesLE4 r.2.1 ++ toBytesLE4 r.2.2.1 ++ toBytesLE4 r.2.2.2

/-- Lower-case hex digit character for a value < 16. -/
def hexDigit (n : ℕ) : Char := if n < 10 then Char.ofNat (48 + n) else Char.ofNat (87 + n)

/-- Lower-case hex rendering of a byte list, two characters per byte. -/
def hexChars : List ℕ → List Char
  | [] => []
  | b :: t => hexDigit (b / 16) :: hexDigit (b % 16) :: hexChars t

/-- Python's `md5(msg).hexdigest()`: lower-case hex string of the digest. -/
def md5Hexdigest (msg : List ℕ) : String := String.mk (hexChars (md5Bytes msg))

/-- First message of the published MD5 collision pair (Wang et al.). -/
def mdCollisionA : List ℕ := [
  209, 49, 221, 2, 197, 230, 238, 196, 105, 61, 154, 6, 152, 175, 249, 92,
  47, 202, 181, 135, 18, 70, 126, 171, 64, 4, 88, 62, 184, 251, 127, 137,
  85, 173, 52, 6, 9, 244, 179, 2, 131, 228, 136, 131, 37, 113, 65, 90,
  8, 81, 37, 232, 247, 205, 201, 159, 217, 29, 189, 242, 128, 55, 60, 91,
  216, 130, 62, 49, 86, 52, 143, 91, 174, 109, 172, 212, 54, 201, 25, 198,
  221, 83, 226, 180, 135, 218, 3, 253, 2, 57, 99, 6, 210, 72, 205, 160,
  233, 159, 51, 66, 15, 87, 126, 232, 206, 84, 182, 112, 128, 168, 13, 30,
  198, 152, 33, 188, 182, 168, 131, 147, 150, 249, 101, 43, 111, 247, 42, 112]

/-- Second message of the published MD5 collision pair (Wang et al.). -/
def mdCollisionB : List ℕ := [
  209, 49, 221, 2, 197, 230, 238, 196, 105, 61, 154, 6, 152, 175, 249, 92,
  47, 202, 181, 7, 18, 70, 126, 171, 64, 4, 88, 62, 184, 251, 127, 137,
  85, 173, 52, 6, 9, 244, 179, 2, 131, 228, 136, 131, 37, 241, 65, 90,
  8, 81, 37, 232, 247, 205, 201, 159, 217, 29, 189, 114, 128, 55, 60, 91,
  216, 130, 62, 49, 86, 52, 143, 91, 174, 109, 172, 212, 54, 201, 25, 198,
  221, 83, 226, 52, 135, 218, 3, 253, 2, 57, 99, 6, 210, 72, 205, 160,
  233, 159, 51, 66, 15, 87, 126, 232, 206, 84, 182, 112, 128, 40, 13, 30,
  198, 152, 33, 188, 182, 168, 131, 147, 150, 249, 101, 171, 111, 247, 42, 112]

/-- The content-addressed identifier the source builds for the background
image reference: the f-string

    f"drawable-canvas-bg-{md5(background_image.tobytes()).hexdigest()}-{key}"

as a function of the image pixel bytes and the widget key. -/
def backgroundImageId (imageBytes : List ℕ) (key : String) : String :=
  String.mk
    ("drawable-canvas-bg-".data ++ hexChars (md5Bytes imageBytes) ++ ['-'] ++ key.data)

/-- Configuration record passed to the rendering component `_component_func`
(§4.3 of the spec; field names as in the source call). -/
structure ComponentArgs (κ : Type) where
  fillColor : String
  strokeWidth : ℤ
  strokeColor : String
  backgroundColor : String
  backgroundImageURL : Option String
  realtimeUpdateStreamlit : Bool
  canvasHeight : ℤ
  canvasWidth : ℤ
  drawingMode : String
  initialDrawing : κ
  displayToolbar : Bool
  displayRadius : ℤ
  key : String
deriving DecidableEq

/-- Payload returned by the rendering component: a `raw` field plus an
optional `selectIndex` field (absence modelled as `none`). -/
structure ComponentValue (α : Type) where
  raw : α
  selectIndex : Option ℤ
deriving DecidableEq

/-- Output record of `st_sparrow_labeling` (the source's `CanvasResult`). -/
structure CanvasResult (ρ : Type) where
  rects_data : ρ
  current_rect_index : Option ℤ
deriving DecidableEq

/-- Caller-supplied arguments of `st_sparrow_labeling` (`ι` is the shape of
`initial_rects`; the docstring types `key` as a string). -/
structure LabelingInputs (ι : Type) where
  fill_color : String
  stroke_width : ℤ
  stroke_color : String
  background_color : String
  background_image : Option PILImage
  update_streamlit : Bool
  height : ℤ
  width : ℤ
  drawing_mode : String
  initial_rects : Option ι
  display_toolbar : Bool
  point_display_radius : ℤ
  canvas_width : ℤ
  doc_height : ℤ
  doc_width : ℤ
  image_rescale : Bool
  key : String
deriving DecidableEq

/-- The external collaborators of the entry point, kept abstract: PIL's
`tobytes`, the host's `st_image.image_to_url` registration (returning the
URL), the `DataProcessor` conversions (its module is not part of this file
set), and the rendering component itself, which returns `None` before any
interaction. -/
structure Collaborators (ι κ α ρ : Type) where
  tobytes : PILImage → List ℕ
  image_to_url : PILImage → ℤ → String → String
  prepare_canvas_data : Option ι → String → ℤ → ℤ → ℤ → ℤ → κ
  prepare_rect_data : α → Option ι → ℤ → ℤ → ℤ → ℤ → ρ
  component_func : ComponentArgs κ → Option (ComponentValue α)

/-- The source's relative-URL normalization: drop one leading slash
(`if background_image_url[0] == '/': background_image_url =
background_image_url[1:]`; the empty string is left unchanged). -/
def stripLeadingSlash (s : String) : String :=
  match s.data with
  | [] => s
  | c :: t => if c = Char.ofNat 47 then String.mk t else s

variable {ι κ α ρ : Type}

/-- The `(height, width)` pair in effect after the optional rescale step
(`if image_rescale: height, width = _image_dimensions_rescale(...)`). -/
def resolvedDims (inp : LabelingInputs ι) : ℤ × ℤ :=
  if inp.image_rescale then
    image_dimensions_rescale inp.canvas_width inp.doc_width inp.doc_height
  else (inp.height, inp.width)

/-- The configuration `st_sparrow_labeling` passes to the rendering
component: `none` on the early-return path (`image_rescale is True and
canvas_width == 0`), otherwise the record of keyword arguments of the
`_component_func(...)` call, after background-image registration and the
background-color override. -/
def componentArgsOf (ext : Collaborators ι κ α ρ) (inp : LabelingInputs ι) :
    Option (ComponentArgs κ) :=
  if inp.image_rescale = true ∧ inp.canvas_width = 0 then none
  else
    let hw := resolvedDims inp
    let bg : Option String × String :=
      match inp.background_image with
      | some img =>
          let img2 := resize_img img hw.1 hw.2
          let url := stripLeadingSlash
            (ext.image_to_url img2 hw.2 (backgroundImageId (ext.tobytes img2) inp.key))
          (some url, "")
      | none => (none, inp.background_color)
    some {
      fillColor := inp.fill_color
      strokeWidth := inp.stroke_width
      strokeColor := inp.stroke_color
      backgroundColor := bg.2
      backgroundImageURL := bg.1
      realtimeUpdateStreamlit := inp.update_streamlit && !(inp.drawing_mode == "polygon")
      canvasHeight := hw.1
      canvasWidth := hw.2
      drawingMode := inp.drawing_mode
      initialDrawing :=
        ext.prepare_canvas_data inp.initial_rects bg.2 inp.doc_height inp.doc_width hw.1 hw.2
      displayToolbar := inp.display_toolbar
      displayRadius := inp.point_display_radius
      key := inp.key }

/-- Embedding of the entry point `st_sparrow_labeling`: build the
configuration (unless the zero-width early return fires), invoke the
rendering component, and convert its payload through the `DataProcessor`
into a `CanvasResult`; `none` models Python's bare `return`. -/
def st_sparrow_labeling (ext : Collaborators ι κ α ρ) (inp : LabelingInputs ι) :
    Option (CanvasResult ρ) :=
  match componentArgsOf ext inp with
  | none => none
  | some cfg =>
    match ext.component_func cfg with
    | none => none
    | some cv =>
      let hw := resolvedDims inp
      some {
        rects_data :=
          ext.prepare_rect_data cv.raw inp.initial_rects inp.doc_height inp.doc_width hw.1 hw.2
        current_rect_index := cv.selectIndex }

/-- Modelled from the spec's words (§4.1): `height = round(doc_height *
ratio)` with `ratio = canvas_width / doc_width` and `round` the
nearest-integer rounding.  The source instead applies `int(...)`,
truncation; this definition exists to compare the two. -/
def rescale_height_round_spec (canvas_width doc_width doc_height : ℤ) : ℤ :=
  round ((doc_height : ℚ) * ((canvas_width : ℚ) / (doc_width : ℚ)))

/-- A concrete set of collaborators for witnesses: the data processor and
component payloads are trivial, the URL registration returns its id. -/
def wProc : Collaborators Unit Unit Unit Unit where
  tobytes := fun _ => []
  image_to_url := fun _ _ s => s
  prepare_canvas_data := fun _ _ _ _ _ _ => ()
  prepare_rect_data := fun _ _ _ _ _ _ => ()
  component_func := fun _ => some { raw := (), selectIndex := none }

/-- A concrete set of caller inputs for witnesses. -/
def wInp : LabelingInputs Unit where
  fill_color := "#eee"
  stroke_width := 20
  stroke_color := "black"
  background_color := "#fff"
  background_image := none
  update_streamlit := true
  height := 400
  width := 600
  drawing_mode := "freedraw"
  initial_rects := none
  display_toolbar := true
  point_display_radius := 3
  canvas_width := 600
  doc_height := 400
  doc_width := 600
  image_rescale := false
  key := "canvas"

/-- Variant of `wInp` with polygon drawing mode. -/
def wInpPoly : LabelingInputs Unit := { wInp with drawing_mode := "polygon" }

/-- Variant of `wInp` with rescaling requested at zero canvas width. -/
def wInpZero : LabelingInputs Unit := { wInp with image_rescale := true, canvas_width := 0 }

/-- A concrete 600x400 background image for witnesses. -/
def wImg : PILImage := { width := 600, height := 400 }

/-- Variant of `wInp` with a background image supplied. -/
def wInpImg : LabelingInputs Unit := { wInp with background_image := some wImg }

/-- The configuration produced from `wInp`. -/
def wCfg : ComponentArgs Unit where
  fillColor := "#eee"
  strokeWidth := 20
  strokeColor := "black"
  backgroundColor := "#fff"
  backgroundImageURL := none
  realtimeUpdateStreamlit := true
  canvasHeight := 400
  canvasWidth := 600
  drawingMode := "freedraw"
  initialDrawing := ()
  displayToolbar := true
  displayRadius := 3
  key := "canvas"

/-- The configuration produced from `wInpPoly`. -/
def wCfgPoly : ComponentArgs Unit := { wCfg with drawingMode := "polygon", realtimeUpdateStreamlit := false }

/-- The configuration produced from `wInpImg`. -/
def wCfgImg : ComponentArgs Unit :=
  { wCfg with
    backgroundColor := "",
    backgroundImageURL := some (backgroundImageId [] "canvas") }

/-- Sample key used in witnesses. -/
def wKey : String := "canvas"

/-- A second, different key used in witnesses. -/
def wKeyB : String := "canvas2"

/-- Sanity vector from §8 of the spec: `(300, 600, 400) -> (200, 300)`. -/
theorem rescale_spec_vector : image_dimensions_rescale 300 600 400 = (200, 300) := by
  with_unfolding_all decide

/-- RFC 1321 test vector: the md5 hexdigest of the empty message. -/
theorem md5Hexdigest_empty : md5Hexdigest [] = "d41d8cd98f00b204e9800998ecf8427e" := by
  with_unfolding_all decide

/-- RFC 1321 test vector: the md5 hexdigest of `"abc"`. -/
theorem md5Hexdigest_abc : md5Hexdigest [97, 98, 99] = "900150983cd24fb0d6963f7d28e17f72" := by
  with_unfolding_all decide

lemma pyInt_intCast (n : ℤ) : pyInt (n : ℚ) = n := by
  unfold pyInt
  split
  · exact Int.floor_intCast n
  · rw [← Int.cast_neg, Int.floor_intCast]
    exact neg_neg n

lemma pyInt_of_nonneg {q : ℚ} (h : 0 ≤ q) : pyInt q = ⌊q⌋ := by
  unfold pyInt
  exact if_pos h

lemma pyInt_self_mul_div (a b : ℤ) (hb : b ≠ 0) :
    pyInt ((b : ℚ) * ((a : ℚ) / (b : ℚ))) = a := by
  have hb0 : (b : ℚ) ≠ 0 := Int.cast_ne_zero.mpr hb
  rw [mul_comm, div_mul_cancel₀ _ hb0, pyInt_intCast]

lemma rescale_exact_width (c d h : ℤ) (hd : d ≠ 0) :
    (image_dimensions_rescale_exact c d h).2 = c := by
  unfold image_dimensions_rescale_exact
  by_cases hcd : c ≥ d
  · simp [hcd]
  · simp only [hcd, if_false, ite_false]
    exact pyInt_self_mul_div c d hd

/-- C1 (amended): for positive inputs the width component equals
`canvas_width` in the `canvas_width >= doc_width` branch, and also in the
other branch under exact division; Python's float rounding can make the
other branch fall short by one (see the counterexample). -/
theorem rescale_width_eq_canvas_width (c d h : ℤ) (hc : 0 < c) (hd : 0 < d) (hh : 0 < h) :
    (image_dimensions_rescale_exact c d h).2 = c ∧
    (d ≤ c → (image_dimensions_rescale c d h).2 = c) := by
  refine ⟨rescale_exact_width c d h hd.ne', ?_⟩
  intro hdc
  unfold image_dimensions_rescale
  simp [ge_iff_le, hdc]

/-- C1 counterexample: at `canvas_width = 1, doc_width = 49` the second
branch computes `int(49 * (1/49))` in floats, which is `0`, not
`canvas_width = 1` (CPython: `int(49 * (1 / 49)) == 0`). -/
theorem rescale_width_float_cex :
    image_dimensions_rescale 1 49 100 = (2, 0) ∧ (0 : ℤ) ≠ 1 :=
  ⟨by with_unfolding_all decide, by decide⟩

/-- Witness for C1 at `(300, 600, 400)` (exact part) and `(600, 600, 400)`
(float part, first branch). -/
theorem rescale_width_eq_canvas_width_w :
    (image_dimensions_rescale_exact 300 600 400).2 = 300 ∧
    (image_dimensions_rescale 600 600 400).2 = 600 :=
  ⟨(rescale_width_eq_canvas_width 300 600 400 (by decide) (by decide) (by decide)).1,
   (rescale_width_eq_canvas_width 600 600 400 (by decide) (by decide) (by decide)).2 (by decide)⟩

/-- C2 counterexample: at `(canvas_width, doc_width, doc_height) = (1, 3, 2)`
the code computes `int(2 * (1/3)) = 0` while `round(2 * (1/3)) = 1`. -/
theorem rescale_height_round_cex :
    (image_dimensions_rescale 1 3 2).1 = 0 ∧ rescale_height_round_spec 1 3 2 = 1 ∧
    (0 : ℤ) ≠ 1 :=
  ⟨by with_unfolding_all decide, by with_unfolding_all decide, by decide⟩

/-- C2 (amended): for positive inputs the height is the truncation toward
zero — equivalently the floor — of `doc_height * canvas_width / doc_width`
(under exact division), not its nearest-integer rounding. -/
theorem rescale_height_is_trunc (c d h : ℤ) (hc : 0 < c) (hd : 0 < d) (hh : 0 < h) :
    (image_dimensions_rescale_exact c d h).1 = ⌊((h : ℚ) * (c : ℚ)) / (d : ℚ)⌋ := by
  unfold image_dimensions_rescale_exact
  have hq : (0 : ℚ) ≤ (h : ℚ) * ((c : ℚ) / (d : ℚ)) := by positivity
  show pyInt ((h : ℚ) * ((c : ℚ) / (d : ℚ))) = _
  rw [pyInt_of_nonneg hq, mul_div_assoc]

/-- Witness for C2's amended statement at `(300, 600, 400)`. -/
theorem rescale_height_is_trunc_w :
    (image_dimensions_rescale_exact 300 600 400).1 = ⌊((400 : ℚ) * 300) / 600⌋ ∧
    (⌊((400 : ℚ) * 300) / 600⌋ : ℤ) = 200 :=
  ⟨rescale_height_is_trunc 300 600 400 (by decide) (by decide) (by decide),
   by with_unfolding_all decide⟩

/-- C8 (amended): under exact division `_resize_img` returns exactly the
target dimensions; Python's float rounding can undershoot by one (see the
counterexample). -/
theorem resize_img_exact_dims (img : PILImage) (nh nw : ℤ)
    (h1 : 0 < img.height) (h2 : 0 < img.width) (h3 : 0 < nh) (h4 : 0 < nw) :
    resize_img_exact img nh nw = { height := nh, width := nw } := by
  unfold resize_img_exact
  simp only [PILImage.mk.injEq]
  exact ⟨pyInt_self_mul_div nw img.width h2.ne', pyInt_self_mul_div nh img.height h1.ne'⟩

/-- C8 counterexample: a 49x10 image resized to target height 5, width 1
comes out 0 wide: `int(49 * (1/49)) = 0` in floats. -/
theorem resize_img_float_cex :
    resize_img { width := 49, height := 10 } 5 1 = { width := 0, height := 5 } ∧
    (0 : ℤ) ≠ 1 :=
  ⟨by with_unfolding_all decide, by decide⟩

/-- Witness for C8's amended statement: a 3x3 image resized to 2x2. -/
theorem resize_img_exact_dims_w :
    resize_img_exact { width := 3, height := 3 } 2 2 = { width := 2, height := 2 } :=
  resize_img_exact_dims { width := 3, height := 3 } 2 2
    (by decide) (by decide) (by decide) (by decide)

lemma nlog2Aux_spec : ∀ fuel n : ℕ, 1 ≤ n → n ≤ fuel →
    2 ^ nlog2Aux fuel n ≤ n ∧ n < 2 ^ (nlog2Aux fuel n + 1) := by
  intro fuel
  induction fuel with
  | zero => intro n h1 h2; omega
  | succ fuel ih =>
    intro n h1 h2
    by_cases hn : n ≤ 1
    · have hn1 : n = 1 := le_antisymm hn h1
      subst hn1
      simp [nlog2Aux]
    · have hval : nlog2Aux (fuel + 1) n = nlog2Aux fuel (n / 2) + 1 := by
        conv_lhs => rw [nlog2Aux]
        rw [if_neg hn]
      have h2' : n / 2 ≤ fuel := by omega
      have h1' : 1 ≤ n / 2 := by omega
      obtain ⟨ha, hb⟩ := ih (n / 2) h1' h2'
      rw [hval]
      constructor
      · have := Nat.mul_le_mul_right 2 ha
        rw [pow_succ]
        omega
      · have := Nat.mul_le_mul_right 2 (Nat.succ_le_of_lt hb)
        rw [pow_succ]
        omega

lemma nlog2_spec (n : ℕ) (h : 1 ≤ n) : 2 ^ nlog2 n ≤ n ∧ n < 2 ^ (nlog2 n + 1) :=
  nlog2Aux_spec n n h le_rfl

lemma nlog2_one : nlog2 1 = 0 := rfl

lemma nlog2_lt_of_lt {n k : ℕ} (h1 : 1 ≤ n) (h2 : n < 2 ^ k) : nlog2 n < k := by
  by_contra hle
  push_neg at hle
  have hs := (nlog2_spec n h1).1
  have : 2 ^ k ≤ n := le_trans (Nat.pow_le_pow_right (by norm_num) hle) hs
  omega

lemma qpow2_natCast (k : ℕ) : qpow2 (k : ℤ) = (2 : ℚ) ^ k := by
  unfold qpow2
  rw [if_pos (Int.natCast_nonneg k)]
  simp

lemma qpow2_eq_zpow (e : ℤ) : qpow2 e = (2 : ℚ) ^ e := by
  unfold qpow2
  split
  · next h => rw [← zpow_natCast, Int.toNat_of_nonneg h]
  · next h =>
    have h0 : (0 : ℤ) ≤ -e := by omega
    rw [← zpow_natCast (2 : ℚ) (-e).toNat, Int.toNat_of_nonneg h0, ← zpow_neg, neg_neg]

lemma qexp_intCast (n : ℤ) (hn : 0 < n) : qexp ((n : ℚ)) = nlog2 n.toNat := by
  have h1 : 1 ≤ n.toNat := by omega
  have h2 : 2 ^ nlog2 n.toNat ≤ n.toNat := (nlog2_spec n.toNat h1).1
  have h4 : ((n.toNat : ℕ) : ℚ) = (n : ℚ) := by
    exact_mod_cast congrArg (fun z : ℤ => (z : ℚ)) (Int.toNat_of_nonneg hn.le)
  have h3 : ((2 : ℚ)) ^ nlog2 n.toNat ≤ (n : ℚ) := by
    calc ((2 : ℚ)) ^ nlog2 n.toNat = ((2 ^ nlog2 n.toNat : ℕ) : ℚ) := by push_cast; ring
      _ ≤ ((n.toNat : ℕ) : ℚ) := by exact_mod_cast h2
      _ = (n : ℚ) := h4
  have hcond : ¬ ((n : ℚ) < qpow2 ((nlog2 n.toNat : ℕ) : ℤ)) := by
    rw [qpow2_natCast]
    exact not_lt.mpr h3
  unfold qexp
  simp only [Rat.num_intCast, Rat.den_intCast, nlog2_one, Nat.cast_zero, sub_zero]
  exact if_neg hcond

lemma roundHalfEven_intCast (m : ℤ) : roundHalfEven ((m : ℚ)) = m := by
  unfold roundHalfEven
  simp only [Int.floor_intCast, sub_self]
  rw [if_neg (by norm_num), if_pos (by norm_num)]

lemma roundDouble_intCast (n : ℤ) (hn : 0 < n) (hrep : n < 2 ^ 53) :
    roundDouble ((n : ℚ)) = n := by
  have hne : ((n : ℚ)) ≠ 0 := by exact_mod_cast hn.ne'
  have hpos : (0 : ℚ) < n := by exact_mod_cast hn
  unfold roundDouble
  rw [if_neg hne, if_pos hpos, qexp_intCast n hn]
  have he52 : nlog2 n.toNat ≤ 52 := by
    have h1 : 1 ≤ n.toNat := by omega
    have h2 : n.toNat < 2 ^ 53 := by
      have h2' : (2 : ℤ) ^ 53 = ((2 ^ 53 : ℕ) : ℤ) := by norm_num
      omega
    have := nlog2_lt_of_lt h1 h2
    omega
  set e := nlog2 n.toNat with he
  set k : ℕ := 52 - e with hk
  have hek : (e : ℤ) - 52 = -(k : ℤ) := by omega
  rw [hek, qpow2_eq_zpow, zpow_neg, zpow_natCast]
  rw [div_eq_mul_inv, inv_inv]
  have hcast : (n : ℚ) * (2 : ℚ) ^ k = ((n * 2 ^ k : ℤ) : ℚ) := by push_cast; ring
  rw [hcast, roundHalfEven_intCast]
  have h2k : ((2 : ℚ)) ^ k ≠ 0 := by positivity
  push_cast
  field_simp

lemma roundDouble_one : roundDouble (1 : ℚ) = 1 := by
  have h := roundDouble_intCast 1 (by norm_num) (by norm_num)
  simpa using h

/-- C9 (amended): when `doc_width == canvas_width` the rescaler returns
`(doc_height, canvas_width)` — the ratio is 1 and the height is unchanged —
for every positive `canvas_width` and every positive float-representable
`doc_height` (i.e. `doc_height < 2^53`); re-applying the rescale to its own
output therefore changes nothing.  The exact-arithmetic model needs no
representability bound on the exact side stated here with the same bound. -/
theorem rescale_at_target_identity (c h : ℤ) (hc : 0 < c) (hh : 0 < h) (hrep : h < 2 ^ 53) :
    image_dimensions_rescale c c h = (h, c) ∧
    image_dimensions_rescale_exact c c h = (h, c) := by
  have hc0 : (c : ℚ) ≠ 0 := Int.cast_ne_zero.mpr hc.ne'
  constructor
  · show (pyInt (fmul (h : ℚ) (fdiv (c : ℚ) (c : ℚ))),
      if c ≥ c then c else pyInt (fmul (c : ℚ) (fdiv (c : ℚ) (c : ℚ)))) = (h, c)
    have h1 : fdiv (c : ℚ) (c : ℚ) = 1 := by
      unfold fdiv
      rw [div_self hc0, roundDouble_one]
    rw [h1, if_pos le_rfl]
    unfold fmul
    rw [mul_one, roundDouble_intCast h hh hrep, pyInt_intCast]
  · show (pyInt ((h : ℚ) * ((c : ℚ) / (c : ℚ))),
      if c ≥ c then c else pyInt ((c : ℚ) * ((c : ℚ) / (c : ℚ)))) = (h, c)
    rw [div_self hc0, mul_one, pyInt_intCast, if_pos le_rfl]

/-- C9 counterexample: `doc_height = 2^53 + 1` is not float-representable;
CPython computes `int((2**53 + 1) * (1/1)) == 2**53`, so the height comes
back changed. -/
theorem rescale_at_target_cex :
    image_dimensions_rescale 1 1 (2 ^ 53 + 1) = (2 ^ 53, 1) ∧ (2 ^ 53 : ℤ) ≠ 2 ^ 53 + 1 :=
  ⟨by with_unfolding_all decide, by decide⟩

/-- Witness for C9's amended statement at `(600, 600, 400)`. -/
theorem rescale_at_target_identity_w :
    image_dimensions_rescale 600 600 400 = (400, 600) ∧
    image_dimensions_rescale_exact 600 600 400 = (400, 600) :=
  rescale_at_target_identity 600 400 (by decide) (by decide) (by decide)

/-- C3: the realtime-update flag passed onward is
`update_streamlit and (drawing_mode != "polygon")`: forced false for
polygon mode, the caller's value otherwise. -/
theorem realtime_flag_polygon (ext : Collaborators ι κ α ρ) (inp : LabelingInputs ι)
    (cfg : ComponentArgs κ) (h : componentArgsOf ext inp = some cfg) :
    (inp.drawing_mode = "polygon" → cfg.realtimeUpdateStreamlit = false) ∧
    (inp.drawing_mode ≠ "polygon" → cfg.realtimeUpdateStreamlit = inp.update_streamlit) := by
  unfold componentArgsOf at h
  by_cases hc : inp.image_rescale = true ∧ inp.canvas_width = 0
  · rw [if_pos hc] at h
    cases h
  · rw [if_neg hc] at h
    simp only [Option.some.injEq] at h
    subst h
    constructor
    · intro hp
      show (inp.update_streamlit && !(inp.drawing_mode == "polygon")) = false
      rw [hp]
      simp
    · intro hp
      show (inp.update_streamlit && !(inp.drawing_mode == "polygon")) = inp.update_streamlit
      have hb : (inp.drawing_mode == "polygon") = false := by
        simp only [beq_eq_false_iff_ne, ne_eq]
        exact hp
      rw [hb]
      simp

/-- C4: with rescaling requested and `canvas_width == 0`, the entry point
returns `None` before building any component configuration (so before the
division by `doc_width` inside the rescaler). -/
theorem zero_canvas_early_return (ext : Collaborators ι κ α ρ) (inp : LabelingInputs ι)
    (h1 : inp.image_rescale = true) (h2 : inp.canvas_width = 0) :
    st_sparrow_labeling ext inp = none ∧ componentArgsOf ext inp = none := by
  have hc : componentArgsOf ext inp = none := by
    unfold componentArgsOf
    rw [if_pos ⟨h1, h2⟩]
  refine ⟨?_, hc⟩
  unfold st_sparrow_labeling
  rw [hc]

/-- C6: with a background image supplied, the `backgroundColor` passed to
the component is cleared to the empty string and a `backgroundImageURL`
reference is passed. -/
theorem background_image_overrides_color (ext : Collaborators ι κ α ρ)
    (inp : LabelingInputs ι) (img : PILImage) (cfg : ComponentArgs κ)
    (himg : inp.background_image = some img)
    (h : componentArgsOf ext inp = some cfg) :
    cfg.backgroundColor = "" ∧ cfg.backgroundImageURL.isSome = true := by
  unfold componentArgsOf at h
  by_cases hc : inp.image_rescale = true ∧ inp.canvas_width = 0
  · rw [if_pos hc] at h
    cases h
  · rw [if_neg hc] at h
    rw [himg] at h
    simp only [Option.some.injEq] at h
    subst h
    exact ⟨rfl, rfl⟩

/-- C7: with no background image, the `backgroundColor` passed to the
component is the caller's value unchanged and `backgroundImageURL` is
nothing. -/
theorem background_color_passthrough (ext : Collaborators ι κ α ρ)
    (inp : LabelingInputs ι) (cfg : ComponentArgs κ)
    (himg : inp.background_image = none)
    (h : componentArgsOf ext inp = some cfg) :
    cfg.backgroundColor = inp.background_color ∧ cfg.backgroundImageURL = none := by
  unfold componentArgsOf at h
  by_cases hc : inp.image_rescale = true ∧ inp.canvas_width = 0
  · rw [if_pos hc] at h
    cases h
  · rw [if_neg hc] at h
    rw [himg] at h
    simp only [Option.some.injEq] at h
    subst h
    exact ⟨rfl, rfl⟩

/-- C10: when the component payload has a `raw` field but no `selectIndex`
field, the call returns a `CanvasResult` whose `current_rect_index` is
`None` — absent selection is not an error. -/
theorem missing_selectIndex_gives_none (ext : Collaborators ι κ α ρ)
    (inp : LabelingInputs ι) (cfg : ComponentArgs κ) (raw : α)
    (hc : componentArgsOf ext inp = some cfg)
    (hv : ext.component_func cfg = some { raw := raw, selectIndex := none }) :
    st_sparrow_labeling ext inp =
      some { rects_data := ext.prepare_rect_data raw inp.initial_rects inp.doc_height
               inp.doc_width (resolvedDims inp).1 (resolvedDims inp).2,
             current_rect_index := none } := by
  unfold st_sparrow_labeling
  rw [hc]
  simp only [hv]

/-- Witness for C3 at `wInpPoly` (and, for the non-polygon side, `wInp`). -/
theorem realtime_flag_polygon_w :
    wCfgPoly.realtimeUpdateStreamlit = false ∧ wCfg.realtimeUpdateStreamlit = true :=
  ⟨(realtime_flag_polygon wProc wInpPoly wCfgPoly (by decide)).1 (by decide),
   (realtime_flag_polygon wProc wInp wCfg (by decide)).2 (by decide)⟩

/-- Witness for C4 at `wInpZero`. -/
theorem zero_canvas_early_return_w :
    st_sparrow_labeling wProc wInpZero = none ∧ componentArgsOf wProc wInpZero = none :=
  zero_canvas_early_return wProc wInpZero (by decide) (by decide)

/-- Witness for C6 at `wInpImg`. -/
theorem background_image_overrides_color_w :
    wCfgImg.backgroundColor = "" ∧ wCfgImg.backgroundImageURL.isSome = true :=
  background_image_overrides_color wProc wInpImg wImg wCfgImg (by decide)
    (by with_unfolding_all decide)

/-- Witness for C7 at `wInp`. -/
theorem background_color_passthrough_w :
    wCfg.backgroundColor = wInp.background_color ∧ wCfg.backgroundImageURL = none :=
  background_color_passthrough wProc wInp wCfg (by decide) (by decide)

/-- Witness for C10 at `wInp` with the trivial payload. -/
theorem missing_selectIndex_gives_none_w :
    st_sparrow_labeling wProc wInp =
      some { rects_data := (), current_rect_index := none } :=
  missing_selectIndex_gives_none wProc wInp wCfg () (by decide) (by decide)

lemma md5Bytes_length (msg : List ℕ) : (md5Bytes msg).length = 16 := by
  unfold md5Bytes
  simp [toBytesLE4]

lemma hexChars_length (l : List ℕ) : (hexChars l).length = 2 * l.length := by
  induction l with
  | nil => rfl
  | cons b t ih =>
    simp only [hexChars, List.length_cons, ih]
    omega

/-- C5 (amended): the reference identifier is content-addressed — equal
pixel bytes with an equal key give an equal identifier, and a different key
always gives a different identifier; differing pixel bytes give a different
identifier exactly when their md5 hexdigests differ, which an md5 collision
defeats (see the counterexample). -/
theorem backgroundImageId_content_addressed (b1 b2 : List ℕ) (k1 k2 : String) :
    (b1 = b2 → k1 = k2 → backgroundImageId b1 k1 = backgroundImageId b2 k2) ∧
    (k1 ≠ k2 → backgroundImageId b1 k1 ≠ backgroundImageId b2 k2) ∧
    (md5Hexdigest b1 ≠ md5Hexdigest b2 →
      backgroundImageId b1 k1 ≠ backgroundImageId b2 k2) := by
  have l1 : (hexChars (md5Bytes b1)).length = 32 := by
    rw [hexChars_length, md5Bytes_length]
  have l2 : (hexChars (md5Bytes b2)).length = 32 := by
    rw [hexChars_length, md5Bytes_length]
  refine ⟨fun hb hk => by rw [hb, hk], ?_, ?_⟩
  · intro hk heq
    apply hk
    unfold backgroundImageId at heq
    replace heq := congrArg String.data heq
    obtain ⟨-, hk2⟩ := List.append_inj heq (by simp [l1, l2])
    cases k1
    cases k2
    exact congrArg String.mk hk2
  · intro hd heq
    apply hd
    unfold backgroundImageId at heq
    replace heq := congrArg String.data heq
    obtain ⟨h3, -⟩ := List.append_inj heq (by simp [l1, l2])
    obtain ⟨h4, -⟩ := List.append_inj h3 (by simp [l1, l2])
    have h5 : hexChars (md5Bytes b1) = hexChars (md5Bytes b2) :=
      List.append_cancel_left h4
    unfold md5Hexdigest
    rw [h5]

/-- C5 counterexample: the two published md5-colliding 128-byte messages
differ, yet (with any one key — here `wKey`) they produce the same
reference identifier, because their md5 digests coincide. -/
theorem backgroundImageId_collision_cex :
    mdCollisionA ≠ mdCollisionB ∧
    backgroundImageId mdCollisionA wKey = backgroundImageId mdCollisionB wKey :=
  ⟨by decide, by with_unfolding_all decide⟩

/-- Witness for C5's amended statement: same bytes and key agree; a
different key separates; bytes with different digests separate. -/
theorem backgroundImageId_content_addressed_w :
    backgroundImageId [] wKey = backgroundImageId [] wKey ∧
    backgroundImageId [] wKey ≠ backgroundImageId [] wKeyB ∧
    backgroundImageId [] wKey ≠ backgroundImageId [0] wKey :=
  ⟨(backgroundImageId_content_addressed [] [] wKey wKey).1 rfl rfl,
   (backgroundImageId_content_addressed [] [] wKey wKeyB).2.1 (by decide),
   (backgroundImageId_content_addressed [] [0] wKey wKey).2.2
     (by with_unfolding_all decide)⟩
